import Mathlib

/-!
Verification of the checkpointed graph-execution core of the
`langgraph_multi_agent` repository.

The repository's own code (routing functions, the supervisor node's
normalization, the API handlers) is embedded directly from the source files
under `agents/`, `graphs/` and `api/`.  The execution engine itself
(the `add_messages` reducer, the checkpoint store, `invoke`, `compile`) is not
part of the repository's sources — only its callers and tests are — so those
pieces are modelled from the specification, each marked `Modelled from the
spec:` in its doc comment.
-/

namespace LangGraphMA

/-- A role-tagged text entry of the conversation, carrying a stable
identifier (the spec's "ordered sequence of role-tagged text entries, each
carrying a stable identifier"); identifiers are modelled as naturals. -/
structure Message where
  id : Nat
  role : String
  content : String
deriving DecidableEq, Repr

/-- Python's `str.lower()` on a text value, modelled character-wise. -/
def pyLower (s : String) : String := ⟨s.data.map Char.toLower⟩

/-- Python's `str.strip()` on a text value: drop leading and trailing
whitespace. -/
def pyStrip (s : String) : String :=
  ⟨((s.data.dropWhile Char.isWhitespace).reverse.dropWhile
      Char.isWhitespace).reverse⟩

/-- Modelled from the spec: the `add_messages` append-with-dedup reducer
(bound to the `messages` field in `agents/*/state.py`, implemented in the
engine library, not under the repository's sources): new entries are appended
in order; an entry whose identifier already exists in the sequence replaces
the existing entry in place rather than duplicating it. -/
def addMessages (base upd : List Message) : List Message :=
  upd.foldl
    (fun acc m =>
      if acc.any (fun x => x.id == m.id) then
        acc.map (fun x => if x.id == m.id then m else x)
      else
        acc ++ [m])
    base

/-- `BusinessAgentState` from `agents/business_agent/state.py`: a single
`messages` field with the `add_messages` reducer. -/
structure BusinessAgentState where
  messages : List Message
deriving DecidableEq, Repr

/-- `SupervisorState` from `agents/supervisor/state.py`: `messages` under the
`add_messages` reducer plus a routing field `next`.  `next` is a required key
of the TypedDict, but at runtime the underlying state mapping may lack it
(e.g. before the supervisor node has ever written it), so it is modelled as
an `Option`: `none` means the key is absent. -/
structure SupervisorState where
  messages : List Message
  next : Option String
deriving DecidableEq, Repr

/-- A partial state update over `SupervisorState`, as produced by a node or
supplied by a caller: fields absent from the update (here `next := none`)
leave the state's field unchanged. -/
structure SupUpdate where
  messages : List Message := []
  next : Option String := none
deriving DecidableEq, Repr

/-- Modelled from the spec: per-field merge of a node/caller update into the
state — `messages` via the append-with-dedup reducer, `next` last-write-wins,
fields absent from the update unchanged. -/
def applySup (s : SupervisorState) (u : SupUpdate) : SupervisorState :=
  { messages := addMessages s.messages u.messages
    next := match u.next with
            | some v => some v
            | none => s.next }

/-- `route_supervisor` from `graphs/multi_agent_system.py`: lower-cases
`state.get("next", "")` and maps `"finish"` to the terminal sentinel, the two
agent names to themselves, and everything else to the terminal sentinel. -/
def route_supervisor (state : SupervisorState) : String :=
  let next_choice := pyLower (state.next.getD "")
  if next_choice = "finish" then "__end__"
  else if next_choice = "business_agent" then "business_agent"
  else if next_choice = "database_agent" then "database_agent"
  else "__end__"

/-- `route_to_agent` from `agents/supervisor/agent.py`: subscripts
`state["next"]` directly (a key-lookup error when the key is absent, modelled
as `Except.error`), maps `"finish"` to the terminal sentinel and returns any
other present value unchanged. -/
def route_to_agent (state : SupervisorState) : Except String String :=
  match state.next with
  | none => .error "KeyError: next"
  | some v => if v = "finish" then .ok "__end__" else .ok v

/-- `supervisor_node` from `agents/supervisor/agent.py`, with the external
completion collaborator's reply text passed in as `responseContent` (the node
is non-deterministic from the engine's point of view) and the fresh identifier
of the routing message as `routingMsgId`: strips and lower-cases the reply,
replaces any value outside the closed routing set by the default
`"business_agent"`, and returns an update setting `next` and appending one
`"Routing to: ..."` message. -/
def supervisor_node (state : SupervisorState) (responseContent : String)
    (routingMsgId : Nat) : SupUpdate :=
  let next_agent := pyLower (pyStrip responseContent)
  let next_agent :=
    if next_agent = "business_agent" ∨ next_agent = "database_agent" ∨
        next_agent = "finish" then
      next_agent
    else
      "business_agent"
  { next := some next_agent
    messages := [⟨routingMsgId, "ai", "Routing to: " ++ next_agent⟩] }

/-- Modelled from the spec: the checkpoint store (`MemorySaver` in
`utils/checkpointer.py` is a thin wrapper around the engine library's store),
a mapping from thread identifier to the latest state snapshot; `none` means
the thread is unseen. -/
def BStore := String → Option BusinessAgentState

/-- Modelled from the spec: `load(threadId)` returns the empty/default state
when the thread is unseen. -/
def loadB (store : BStore) (threadId : String) : BusinessAgentState :=
  (store threadId).getD ⟨[]⟩

/-- Modelled from the spec: `save(threadId, state)` persists the snapshot
under the thread identifier, leaving every other thread untouched. -/
def saveB (store : BStore) (threadId : String) (s : BusinessAgentState) :
    BStore :=
  fun t => if t = threadId then some s else store t

/-- The store with no checkpoints. -/
def emptyBStore : BStore := fun _ => none

/-- Modelled from the spec: one `invoke(threadId, inputUpdate)` of the
compiled business-agent graph (`create_business_agent_graph` in
`agents/business_agent/agent.py`: entry node `business_query`, static edges
`START → business_query → END`) against a checkpoint store.  The external
completion collaborator is the oracle `llm`; `llm _ = none` models the
`llm.invoke` call inside `business_query_node` failing.  The engine loads the
thread's prior state, merges the caller's input, runs the node, merges its
output, and persists only on termination; on node failure the invocation
fails with no merge of the node's output and no persistence. -/
def invokeBusiness (llm : List Message → Option Message) (store : BStore)
    (threadId : String) (input : List Message) :
    BStore × Except String BusinessAgentState :=
  let prior := loadB store threadId
  let merged := addMessages prior.messages input
  match llm merged with
  | none => (store, .error "node execution failed")
  | some reply =>
      let final : BusinessAgentState := ⟨addMessages merged [reply]⟩
      (saveB store threadId final, .ok final)

/-- Modelled from the spec: one invocation of the parent multi-agent graph of
`graphs/multi_agent_system.py` (entry `supervisor`; conditional edge from
`supervisor` resolved by `route_supervisor` over the destination map
`{business_agent ↦ business_agent, database_agent ↦ database_agent,
__end__ ↦ END}`; static edges `business_agent → END`, `database_agent → END`)
on a prior state.  Per the spec's transition rule the conditional edge is
evaluated against the post-merge state, i.e. after the supervisor node's own
output has been merged.  `supResp` is the completion collaborator's reply to
the supervisor's routing prompt, `supMsgId` the fresh identifier of its
routing message, and `agentReply` the collaborator's reply inside whichever
specialist node runs. -/
def runMultiAgent (supResp : String) (supMsgId : Nat)
    (agentReply : List Message → Message) (prior : SupervisorState)
    (input : SupUpdate) : SupervisorState :=
  let s1 := applySup prior input
  let supOut := supervisor_node s1 supResp supMsgId
  let s2 := applySup s1 supOut
  match route_supervisor s2 with
  | "business_agent" => applySup s2 { messages := [agentReply s2.messages] }
  | "database_agent" => applySup s2 { messages := [agentReply s2.messages] }
  | _ => s2

/-- Modelled from the spec: `compile`-time validation of a conditional edge —
every declared possible return value of the routing function (its `Literal`
annotation in the source) must be a key of the declared destination map, else
compilation fails with a construction error before any invocation runs. -/
def compileCondEdge (routeFn : SupervisorState → String)
    (declaredReturns : List String) (destKeys : List String) :
    Except String (SupervisorState → String) :=
  if declaredReturns.all (fun r => destKeys.contains r) then
    .ok routeFn
  else
    .error "construction error: conditional edge has an undeclared destination"

/-- The `Literal` return annotation of `route_supervisor` in
`graphs/multi_agent_system.py`. -/
def routeSupervisorDeclaredReturns : List String :=
  ["business_agent", "database_agent", "__end__"]

/-- The keys of the destination map passed to `add_conditional_edges` in
`graphs/multi_agent_system.py`. -/
def multiAgentDestKeys : List String :=
  ["business_agent", "database_agent", "__end__"]

/-- `get_conversation_history` from `api/server.py` (formatting part): reads
the thread's checkpoint without side effect and formats each message as a
role/content pair, `"user"` for human messages and `"assistant"` otherwise;
an unseen thread yields the empty history. -/
def get_conversation_history (store : BStore) (threadId : String) :
    List (String × String) :=
  match store threadId with
  | none => []
  | some s =>
      s.messages.map
        (fun m => (if m.role = "user" then "user" else "assistant", m.content))

/-- `delete_conversation` from `api/server.py`: the handler for
`DELETE /conversation/{thread_id}` only builds a response text; it never calls
the checkpoint store, so the store is returned unchanged. -/
def delete_conversation (store : BStore) (threadId : String) :
    BStore × (String × String) :=
  (store,
   ("Conversation " ++ threadId ++ " deletion requested",
    "With MemorySaver, conversations are cleared on restart. Use MySQL for persistent storage."))

/-! ### Lemmas about the append-with-dedup reducer -/

/-- Merging a singleton update either replaces in place or appends. -/
lemma addMessages_singleton (S : List Message) (m : Message) :
    addMessages S [m] =
      if S.any (fun x => x.id == m.id) then
        S.map (fun x => if x.id == m.id then m else x)
      else
        S ++ [m] := rfl

/-- Merging a concatenated update is merging the parts in order. -/
lemma addMessages_append (S u v : List Message) :
    addMessages S (u ++ v) = addMessages (addMessages S u) v := by
  simp [addMessages, List.foldl_append]

/-- Replacement is the identity when no entry carries the identifier. -/
lemma map_replace_eq_self (S : List Message) (m : Message)
    (h : S.any (fun x => x.id == m.id) = false) :
    S.map (fun x => if x.id == m.id then m else x) = S := by
  induction S with
  | nil => rfl
  | cons a t ih =>
      simp only [List.any_cons, Bool.or_eq_false_iff] at h
      have ha : ¬ ((a.id == m.id) = true) := by simp [h.1]
      simp only [List.map_cons, if_neg ha, ih h.2]

/-- A fresh-identifier singleton update is appended at the end. -/
lemma addMessages_fresh (S : List Message) (m : Message)
    (h : ∀ x ∈ S, x.id ≠ m.id) : addMessages S [m] = S ++ [m] := by
  rw [addMessages_singleton, if_neg]
  simp only [List.any_eq_true, beq_iff_eq, not_exists, not_and]
  exact h

/-- After a replacement with `m`, some entry carries `m`'s identifier. -/
lemma any_map_replace (S : List Message) (m : Message)
    (h : S.any (fun x => x.id == m.id) = true) :
    (S.map (fun x => if x.id == m.id then m else x)).any
      (fun x => x.id == m.id) = true := by
  rcases List.any_eq_true.mp h with ⟨x, hxS, hx⟩
  refine List.any_eq_true.mpr ⟨m, ?_, by simp⟩
  refine List.mem_map.mpr ⟨x, hxS, ?_⟩
  simp [hx]

/-- Replacing with `m` twice is replacing once. -/
lemma map_replace_idem (S : List Message) (m : Message) :
    (S.map (fun x => if x.id == m.id then m else x)).map
        (fun x => if x.id == m.id then m else x)
      = S.map (fun x => if x.id == m.id then m else x) := by
  have hgg : ((fun x : Message => if x.id == m.id then m else x) ∘
        (fun x : Message => if x.id == m.id then m else x))
      = fun x : Message => if x.id == m.id then m else x := by
    funext x
    simp only [Function.comp_apply]
    by_cases hx : x.id = m.id
    · simp [hx]
    · simp [hx]
  rw [List.map_map, hgg]

/-- Idempotence of the reducer on a singleton update. -/
lemma addMessages_singleton_idem (S : List Message) (m : Message) :
    addMessages (addMessages S [m]) [m] = addMessages S [m] := by
  by_cases h : S.any (fun x => x.id == m.id) = true
  · rw [addMessages_singleton S m, if_pos h, addMessages_singleton,
      if_pos (any_map_replace S m h), map_replace_idem]
  · have h' : S.any (fun x => x.id == m.id) = false := by
      revert h
      cases S.any (fun x => x.id == m.id) <;> simp
    rw [addMessages_singleton S m, if_neg (by simp [h']), addMessages_singleton]
    have hany : ((S ++ [m]).any (fun x => x.id == m.id)) = true := by
      simp [List.any_append]
    rw [if_pos hany, List.map_append, map_replace_eq_self S m h']
    simp

/-- The `next` field after a merge: last-write-wins, unchanged when the
update leaves it out. -/
lemma applySup_next (s : SupervisorState) (u : SupUpdate) :
    (applySup s u).next =
      match u.next with | some v => some v | none => s.next := rfl

/-- The `next` value `supervisor_node` writes, as an explicit
normalization of the collaborator's reply text. -/
lemma supervisor_node_next (s : SupervisorState) (r : String) (i : Nat) :
    (supervisor_node s r i).next =
      some (if pyLower (pyStrip r) = "business_agent"
              ∨ pyLower (pyStrip r) = "database_agent"
              ∨ pyLower (pyStrip r) = "finish"
            then pyLower (pyStrip r) else "business_agent") := rfl

/-! ### Claim theorems -/

/-- C2: the append-with-dedup reducer for `messages` is idempotent (merging
the update `{messages: [m]}` twice into any base state `S` yields the same
sequence as merging it once) and order-preserving: an entry whose identifier
already occurs replaces the existing entry in place (positions and length
preserved), otherwise the new entry is appended at the end. -/
theorem add_messages_idempotent_in_place (S : List Message) (m : Message) :
    addMessages (addMessages S [m]) [m] = addMessages S [m]
    ∧ addMessages S [m] =
        (if S.any (fun x => x.id == m.id) then
          S.map (fun x => if x.id == m.id then m else x)
        else S ++ [m])
    ∧ (addMessages S [m]).length =
        (if S.any (fun x => x.id == m.id) then S.length else S.length + 1) := by
  refine ⟨addMessages_singleton_idem S m, addMessages_singleton S m, ?_⟩
  rw [addMessages_singleton]
  by_cases h : S.any (fun x => x.id == m.id) = true
  · rw [if_pos h, if_pos h, List.length_map]
  · rw [if_neg h, if_neg h]
    simp

/-- C5: routing closure — `route_supervisor` is total and always returns a
member of its declared destination set `{business_agent, database_agent,
__end__}`; it maps `finish` to `__end__`, the two agent names to themselves,
and any other (or absent) `next` value to `__end__`. -/
theorem route_supervisor_closure (s : SupervisorState) (m : List Message) :
    (route_supervisor s = "business_agent"
      ∨ route_supervisor s = "database_agent"
      ∨ route_supervisor s = "__end__")
    ∧ route_supervisor ⟨m, some "finish"⟩ = "__end__"
    ∧ route_supervisor ⟨m, some "business_agent"⟩ = "business_agent"
    ∧ route_supervisor ⟨m, some "database_agent"⟩ = "database_agent"
    ∧ route_supervisor ⟨m, none⟩ = "__end__"
    ∧ route_supervisor ⟨m, some "unknown_value"⟩ = "__end__" := by
  refine ⟨?_, rfl, rfl, rfl, rfl, rfl⟩
  unfold route_supervisor
  by_cases h1 : pyLower (s.next.getD "") = "finish"
  · simp [h1]
  · by_cases h2 : pyLower (s.next.getD "") = "business_agent"
    · simp [h1, h2]
    · by_cases h3 : pyLower (s.next.getD "") = "database_agent"
      · simp [h1, h2, h3]
      · simp [h1, h2, h3]

/-- C9 counterexample: on the state whose `next` is `"unknown_value"` —
present but not one of the canonical routing values — the two routing
functions do not agree: `route_to_agent` returns the raw value
`"unknown_value"` while `route_supervisor` returns `"__end__"`, so the two
functions do not implement the same routing table on all states where `next`
is present. -/
theorem route_functions_disagreement_counterexample :
    route_to_agent ⟨[], some "unknown_value"⟩ = .ok "unknown_value"
    ∧ route_supervisor ⟨[], some "unknown_value"⟩ = "__end__"
    ∧ route_to_agent ⟨[], some "unknown_value"⟩
        ≠ .ok (route_supervisor ⟨[], some "unknown_value"⟩) := by
  refine ⟨rfl, rfl, ?_⟩
  intro h
  simp only [route_to_agent, route_supervisor] at h
  exact absurd (Except.ok.inj h) (by decide)

/-- C9 (amended): on every state lacking the `next` key, `route_to_agent`
fails with a key-lookup error while `route_supervisor` returns the terminal
sentinel `"__end__"` — so `route_to_agent` is not total — and the two
functions agree on every state whose `next` holds one of the canonical
normalized values `business_agent`, `database_agent`, `finish`. -/
theorem route_functions_absent_next (m : List Message) :
    (route_to_agent ⟨m, none⟩ = .error "KeyError: next"
      ∧ route_supervisor ⟨m, none⟩ = "__end__")
    ∧ (route_to_agent ⟨m, some "finish"⟩
          = .ok (route_supervisor ⟨m, some "finish"⟩)
      ∧ route_to_agent ⟨m, some "business_agent"⟩
          = .ok (route_supervisor ⟨m, some "business_agent"⟩)
      ∧ route_to_agent ⟨m, some "database_agent"⟩
          = .ok (route_supervisor ⟨m, some "database_agent"⟩)) :=
  ⟨⟨rfl, rfl⟩, ⟨rfl, rfl, rfl⟩⟩

/-- C10: the `DELETE /conversation/{thread_id}` handler performs no state
change — the checkpoint store after the call equals the store before it, the
checkpoint of every thread is untouched, and a subsequent
`GET /conversation/{thread_id}` returns the same, undeleted history. -/
theorem delete_conversation_no_state_change (store : BStore)
    (tid tid2 : String) :
    (delete_conversation store tid).1 = store
    ∧ (delete_conversation store tid).1 tid2 = store tid2
    ∧ get_conversation_history (delete_conversation store tid).1 tid2
        = get_conversation_history store tid2 :=
  ⟨rfl, rfl, rfl⟩

/-- C4: `supervisor_node` normalizes invalid routing values before they
reach state — for every possible reply text of the completion collaborator,
the `next` value the node writes is a member of the closed set
`{business_agent, database_agent, finish}` (anything outside it is replaced
by the default `business_agent` inside the node), and the state persisted by
an invocation of the multi-agent graph carries exactly that normalized
value, so `getState` never shows an unrecognized `next`. -/
theorem supervisor_node_normalizes_routing (s : SupervisorState)
    (resp : String) (i : Nat) (prior : SupervisorState) (input : SupUpdate)
    (agentReply : List Message → Message) :
    ((supervisor_node s resp i).next = some "business_agent"
      ∨ (supervisor_node s resp i).next = some "database_agent"
      ∨ (supervisor_node s resp i).next = some "finish")
    ∧ (runMultiAgent resp i agentReply prior input).next
        = (supervisor_node (applySup prior input) resp i).next := by
  constructor
  · rw [supervisor_node_next]
    by_cases h : pyLower (pyStrip resp) = "business_agent"
        ∨ pyLower (pyStrip resp) = "database_agent"
        ∨ pyLower (pyStrip resp) = "finish"
    · rw [if_pos h]
      rcases h with h | h | h
      · exact Or.inl (by rw [h])
      · exact Or.inr (Or.inl (by rw [h]))
      · exact Or.inr (Or.inr (by rw [h]))
    · rw [if_neg h]
      exact Or.inl rfl
  · simp only [runMultiAgent]
    split <;> simp [applySup_next, supervisor_node_next]

/-- C6: conditional routing is evaluated against the post-merge state — the
state the conditional edge reads carries the `next` value freshly written by
the supervisor node's own output in the same transition, and that value
determines the destination: a `database_agent` decision makes the execution
run the database agent node on the post-merge state, while a `finish`
decision terminates with the post-merge state itself. -/
theorem conditional_routing_post_merge (prior : SupervisorState)
    (input : SupUpdate) (i : Nat) (reply : List Message → Message) :
    (∀ resp,
      (applySup (applySup prior input)
          (supervisor_node (applySup prior input) resp i)).next
        = (supervisor_node (applySup prior input) resp i).next)
    ∧ runMultiAgent "database_agent" i reply prior input
        = (let s2 := applySup (applySup prior input)
              (supervisor_node (applySup prior input) "database_agent" i)
           applySup s2 { messages := [reply s2.messages] })
    ∧ runMultiAgent "business_agent" i reply prior input
        = (let s2 := applySup (applySup prior input)
              (supervisor_node (applySup prior input) "business_agent" i)
           applySup s2 { messages := [reply s2.messages] })
    ∧ runMultiAgent "finish" i reply prior input
        = applySup (applySup prior input)
            (supervisor_node (applySup prior input) "finish" i) := by
  refine ⟨fun resp => ?_, ?_, ?_, ?_⟩
  · rw [applySup_next, supervisor_node_next]
  · simp only [runMultiAgent]
    have hroute :
        route_supervisor (applySup (applySup prior input)
            (supervisor_node (applySup prior input) "database_agent" i))
          = "database_agent" := by
      unfold route_supervisor
      rw [applySup_next, supervisor_node_next]
      rfl
    rw [hroute]
    rfl
  · simp only [runMultiAgent]
    have hroute :
        route_supervisor (applySup (applySup prior input)
            (supervisor_node (applySup prior input) "business_agent" i))
          = "business_agent" := by
      unfold route_supervisor
      rw [applySup_next, supervisor_node_next]
      rfl
    rw [hroute]
    rfl
  · simp only [runMultiAgent]
    have hroute :
        route_supervisor (applySup (applySup prior input)
            (supervisor_node (applySup prior input) "finish" i))
          = "__end__" := by
      unfold route_supervisor
      rw [applySup_next, supervisor_node_next]
      rfl
    rw [hroute]
    rfl

/-- C7: conditional-edge destination validation happens at graph
construction, not at execution — the spec-modelled `compile` rejects, with a
construction error and before any invocation runs, every conditional edge one
of whose declared possible return values is not a key of the destination map,
and accepts the repository's edge, whose routing function moreover really
only produces members of the declared destination set. -/
theorem compile_validates_destinations (f : SupervisorState → String)
    (decl keys : List String) (r : String) (hr : r ∈ decl) (hk : r ∉ keys) :
    compileCondEdge f decl keys
      = .error "construction error: conditional edge has an undeclared destination"
    ∧ compileCondEdge route_supervisor routeSupervisorDeclaredReturns
        multiAgentDestKeys = .ok route_supervisor
    ∧ (∀ s, route_supervisor s ∈ multiAgentDestKeys) := by
  refine ⟨?_, rfl, fun s => ?_⟩
  · unfold compileCondEdge
    rw [if_neg]
    intro hall
    rcases List.all_eq_true.mp hall r hr with h
    exact hk (by simpa using h)
  · have h := (route_supervisor_closure s []).1
    rcases h with h | h | h <;> simp [multiAgentDestKeys, h]

/-- C8: node-failure atomicity — when the node's function fails (the
completion collaborator inside `business_query_node` returning no reply), the
invocation fails, the node's output is not merged, nothing is persisted for
the transition, and every thread's prior checkpoint (in particular the
invoked thread's) is left exactly as it was. -/
theorem node_failure_atomicity (llm : List Message → Option Message)
    (store : BStore) (T : String) (input : List Message)
    (hfail : llm (addMessages (loadB store T).messages input) = none) :
    invokeBusiness llm store T input = (store, .error "node execution failed")
    ∧ (∀ t, (invokeBusiness llm store T input).1 t = store t) := by
  have h : invokeBusiness llm store T input
      = (store, .error "node execution failed") := by
    simp only [invokeBusiness]
    rw [hfail]
  exact ⟨h, fun t => by rw [h]⟩

/-- C1: resumability — invoking the business-agent graph on thread `T` with
a one-human-message update and then invoking it again on `T` with a second
one yields a final state whose `messages` equal
`merge(merge(empty, U1), U2)`'s messages, where each `Ui` consists of the
invocation's accepted updates (caller input followed by node output): the
persisted history is the ordered concatenation of all accepted updates,
earlier entries unchanged and in their original order, 4 messages after two
invocations. -/
theorem invoke_twice_accumulates_history (T : String)
    (llm : List Message → Option Message) (m1 q1 m2 q2 : Message)
    (hl1 : llm [m1] = some q1) (hl2 : llm [m1, q1, m2] = some q2)
    (hnd : [m1.id, q1.id, m2.id, q2.id].Nodup) :
    (invokeBusiness llm (invokeBusiness llm emptyBStore T [m1]).1 T [m2]).2
        = .ok ⟨[m1, q1, m2, q2]⟩
    ∧ (invokeBusiness llm (invokeBusiness llm emptyBStore T [m1]).1 T [m2]).1
        T = some ⟨[m1, q1, m2, q2]⟩
    ∧ ([m1, q1, m2, q2] : List Message)
        = addMessages (addMessages [] ([m1] ++ [q1])) ([m2] ++ [q2])
    ∧ ([m1, q1, m2, q2] : List Message).length = 4 := by
  simp only [List.nodup_cons, List.mem_cons, List.mem_singleton,
    List.not_mem_nil, or_false, not_or, List.nodup_nil, and_true] at hnd
  obtain ⟨⟨h1a, h1b, h1c⟩, ⟨h2a, h2b⟩, h3a, -⟩ := hnd
  have e1 : addMessages [] [m1] = [m1] := addMessages_fresh [] m1 (by simp)
  have e2 : addMessages [m1] [q1] = [m1, q1] := by
    rw [addMessages_fresh [m1] q1 (by
      intro x hx
      rw [List.mem_singleton] at hx
      subst hx
      exact h1a)]
    rfl
  have e3 : addMessages [m1, q1] [m2] = [m1, q1, m2] := by
    rw [addMessages_fresh [m1, q1] m2 (by
      intro x hx
      rcases List.mem_cons.mp hx with rfl | hx
      · exact h1b
      · rw [List.mem_singleton] at hx
        subst hx
        exact h2a)]
    rfl
  have e4 : addMessages [m1, q1, m2] [q2] = [m1, q1, m2, q2] := by
    rw [addMessages_fresh [m1, q1, m2] q2 (by
      intro x hx
      rcases List.mem_cons.mp hx with rfl | hx
      · exact h1c
      rcases List.mem_cons.mp hx with rfl | hx
      · exact h2b
      · rw [List.mem_singleton] at hx
        subst hx
        exact h3a)]
    rfl
  have r1 : invokeBusiness llm emptyBStore T [m1]
      = (saveB emptyBStore T ⟨[m1, q1]⟩, .ok ⟨[m1, q1]⟩) := by
    simp only [invokeBusiness, loadB, emptyBStore, Option.getD_none, e1, hl1,
      e2]
  have hsave : (saveB emptyBStore T ⟨[m1, q1]⟩) T = some ⟨[m1, q1]⟩ := by
    simp [saveB]
  have r2 : invokeBusiness llm (saveB emptyBStore T ⟨[m1, q1]⟩) T [m2]
      = (saveB (saveB emptyBStore T ⟨[m1, q1]⟩) T ⟨[m1, q1, m2, q2]⟩,
         .ok ⟨[m1, q1, m2, q2]⟩) := by
    simp only [invokeBusiness, loadB, hsave, Option.getD_some, e3, hl2, e4]
  refine ⟨?_, ?_, ?_, rfl⟩
  · rw [r1, r2]
  · rw [r1, r2]
    simp [saveB]
  · rw [addMessages_append, addMessages_append, e1, e2, e3, e4]

/-- C3: thread isolation — invoking the business-agent graph on thread `T1`
neither modifies the checkpoint stored under a distinct thread `T2` (the
store is unchanged at `T2`, whatever the node does) nor reads it (the result
and `T1`'s new checkpoint are insensitive to overwriting `T2`'s slot), and
after the interleaved scenario `T1; T2; T1` the twice-invoked thread holds
exactly its own 4 messages and the once-invoked thread its own 2. -/
theorem thread_isolation (T1 T2 : String) (hT : T1 ≠ T2)
    (llm : List Message → Option Message) (store : BStore)
    (input : List Message) (s2 : BusinessAgentState)
    (m1 q1 m2 q2 m3 q3 : Message)
    (hl1 : llm [m1] = some q1) (hl2 : llm [m2] = some q2)
    (hl3 : llm [m1, q1, m3] = some q3)
    (hnd : [m1.id, q1.id, m3.id, q3.id].Nodup) (hm2 : m2.id ≠ q2.id) :
    (invokeBusiness llm store T1 input).1 T2 = store T2
    ∧ (invokeBusiness llm (saveB store T2 s2) T1 input).2
        = (invokeBusiness llm store T1 input).2
    ∧ (invokeBusiness llm (saveB store T2 s2) T1 input).1 T1
        = (invokeBusiness llm store T1 input).1 T1
    ∧ (loadB (invokeBusiness llm
          (invokeBusiness llm
            (invokeBusiness llm emptyBStore T1 [m1]).1 T2 [m2]).1 T1 [m3]).1
        T1).messages = [m1, q1, m3, q3]
    ∧ (loadB (invokeBusiness llm
          (invokeBusiness llm
            (invokeBusiness llm emptyBStore T1 [m1]).1 T2 [m2]).1 T1 [m3]).1
        T2).messages = [m2, q2] := by
  simp only [List.nodup_cons, List.mem_cons, List.mem_singleton,
    List.not_mem_nil, or_false, not_or, List.nodup_nil, and_true] at hnd
  obtain ⟨⟨h1a, h1b, h1c⟩, ⟨h2a, h2b⟩, h3a, -⟩ := hnd
  have hload12 : loadB (saveB store T2 s2) T1 = loadB store T1 := by
    simp [loadB, saveB, hT]
  have e1 : addMessages [] [m1] = [m1] := addMessages_fresh [] m1 (by simp)
  have e2 : addMessages [m1] [q1] = [m1, q1] := by
    rw [addMessages_fresh [m1] q1 (by
      intro x hx
      rw [List.mem_singleton] at hx
      subst hx
      exact h1a)]
    rfl
  have e3 : addMessages [] [m2] = [m2] := addMessages_fresh [] m2 (by simp)
  have e4 : addMessages [m2] [q2] = [m2, q2] := by
    rw [addMessages_fresh [m2] q2 (by
      intro x hx
      rw [List.mem_singleton] at hx
      subst hx
      exact hm2)]
    rfl
  have e5 : addMessages [m1, q1] [m3] = [m1, q1, m3] := by
    rw [addMessages_fresh [m1, q1] m3 (by
      intro x hx
      rcases List.mem_cons.mp hx with rfl | hx
      · exact h1b
      · rw [List.mem_singleton] at hx
        subst hx
        exact h2a)]
    rfl
  have e6 : addMessages [m1, q1, m3] [q3] = [m1, q1, m3, q3] := by
    rw [addMessages_fresh [m1, q1, m3] q3 (by
      intro x hx
      rcases List.mem_cons.mp hx with rfl | hx
      · exact h1c
      rcases List.mem_cons.mp hx with rfl | hx
      · exact h2b
      · rw [List.mem_singleton] at hx
        subst hx
        exact h3a)]
    rfl
  have r1 : invokeBusiness llm emptyBStore T1 [m1]
      = (saveB emptyBStore T1 ⟨[m1, q1]⟩, .ok ⟨[m1, q1]⟩) := by
    simp only [invokeBusiness, loadB, emptyBStore, Option.getD_none, e1,
      hl1, e2]
  have hread2 : (saveB emptyBStore T1 ⟨[m1, q1]⟩) T2 = none := by
    simp [saveB, emptyBStore, Ne.symm hT]
  have r2 : invokeBusiness llm (saveB emptyBStore T1 ⟨[m1, q1]⟩) T2 [m2]
      = (saveB (saveB emptyBStore T1 ⟨[m1, q1]⟩) T2 ⟨[m2, q2]⟩,
         .ok ⟨[m2, q2]⟩) := by
    simp only [invokeBusiness, loadB, hread2, Option.getD_none, e3, hl2, e4]
  have hread3 : (saveB (saveB emptyBStore T1 ⟨[m1, q1]⟩) T2 ⟨[m2, q2]⟩) T1
      = some ⟨[m1, q1]⟩ := by
    simp [saveB, hT]
  have r3 : invokeBusiness llm
        (saveB (saveB emptyBStore T1 ⟨[m1, q1]⟩) T2 ⟨[m2, q2]⟩) T1 [m3]
      = (saveB (saveB (saveB emptyBStore T1 ⟨[m1, q1]⟩) T2 ⟨[m2, q2]⟩) T1
           ⟨[m1, q1, m3, q3]⟩,
         .ok ⟨[m1, q1, m3, q3]⟩) := by
    simp only [invokeBusiness, loadB, hread3, Option.getD_some, e5, hl3, e6]
  refine ⟨?_, ?_, ?_, ?_, ?_⟩
  · simp only [invokeBusiness]
    cases hll : llm (addMessages (loadB store T1).messages input) with
    | none => rfl
    | some r => simp [saveB, Ne.symm hT]
  · simp only [invokeBusiness, hload12]
    cases hll : llm (addMessages (loadB store T1).messages input) with
    | none => rfl
    | some r => rfl
  · simp only [invokeBusiness, hload12]
    cases hll : llm (addMessages (loadB store T1).messages input) with
    | none => simp [saveB, hT]
    | some r => simp [saveB]
  · rw [r1, r2, r3]
    simp [loadB, saveB]
  · rw [r1, r2, r3]
    simp [loadB, saveB, Ne.symm hT]

/-- Witness for C7 at a concrete edge: a routing function declaring the
return value `"elsewhere"`, which is not a destination key, is rejected at
construction. -/
theorem compile_validates_destinations_witness :
    compileCondEdge route_supervisor ["elsewhere"] multiAgentDestKeys
      = .error
        "construction error: conditional edge has an undeclared destination" :=
  (compile_validates_destinations route_supervisor ["elsewhere"]
    multiAgentDestKeys "elsewhere" (by decide) (by decide)).1

/-- Witness for C8 at a concrete input: a collaborator that always fails,
thread `"a"`, empty caller input — the invocation errors and the store is
returned untouched. -/
theorem node_failure_atomicity_witness :
    invokeBusiness (fun _ => none) emptyBStore "a" []
      = (emptyBStore, .error "node execution failed") :=
  (node_failure_atomicity (fun _ => none) emptyBStore "a" [] rfl).1

/-- Witness for C1 at concrete inputs: thread `"a"`, caller messages with
identifiers 1 and 2, collaborator replying with identifier `100 +` the
history length — after the second invocation the thread holds the 4 messages
in order. -/
theorem invoke_twice_accumulates_history_witness :
    (invokeBusiness (fun ms => some ⟨100 + ms.length, "ai", "reply"⟩)
        (invokeBusiness (fun ms => some ⟨100 + ms.length, "ai", "reply"⟩)
          emptyBStore "a" [⟨1, "user", "hi"⟩]).1 "a" [⟨2, "user", "more"⟩]).2
      = .ok ⟨[⟨1, "user", "hi"⟩, ⟨101, "ai", "reply"⟩, ⟨2, "user", "more"⟩,
             ⟨103, "ai", "reply"⟩]⟩ :=
  (invoke_twice_accumulates_history "a"
    (fun ms => some ⟨100 + ms.length, "ai", "reply"⟩)
    ⟨1, "user", "hi"⟩ ⟨101, "ai", "reply"⟩ ⟨2, "user", "more"⟩
    ⟨103, "ai", "reply"⟩ rfl rfl (by decide)).1

/-- Witness for C3 at concrete inputs: threads `"a"` and `"b"`, interleaved
invocations `a; b; a` — thread `"a"` ends with 4 messages and thread `"b"`
with 2. -/
theorem thread_isolation_witness :
    (loadB (invokeBusiness (fun ms => some ⟨100 + ms.length, "ai", "reply"⟩)
        (invokeBusiness (fun ms => some ⟨100 + ms.length, "ai", "reply"⟩)
          (invokeBusiness (fun ms => some ⟨100 + ms.length, "ai", "reply"⟩)
            emptyBStore "a" [⟨1, "user", "logistics"⟩]).1 "b"
          [⟨2, "user", "warehousing"⟩]).1 "a" [⟨3, "user", "more"⟩]).1
      "a").messages.length = 4
    ∧ (loadB (invokeBusiness (fun ms => some ⟨100 + ms.length, "ai", "reply"⟩)
        (invokeBusiness (fun ms => some ⟨100 + ms.length, "ai", "reply"⟩)
          (invokeBusiness (fun ms => some ⟨100 + ms.length, "ai", "reply"⟩)
            emptyBStore "a" [⟨1, "user", "logistics"⟩]).1 "b"
          [⟨2, "user", "warehousing"⟩]).1 "a" [⟨3, "user", "more"⟩]).1
      "b").messages.length = 2 := by
  have h := thread_isolation "a" "b" (by decide)
    (fun ms => some ⟨100 + ms.length, "ai", "reply"⟩) emptyBStore [] ⟨[]⟩
    ⟨1, "user", "logistics"⟩ ⟨101, "ai", "reply"⟩ ⟨2, "user", "warehousing"⟩
    ⟨101, "ai", "reply"⟩ ⟨3, "user", "more"⟩ ⟨103, "ai", "reply"⟩
    rfl rfl rfl (by decide) (by decide)
  exact ⟨by rw [h.2.2.2.1]; rfl, by rw [h.2.2.2.2]; rfl⟩

end LangGraphMA
